import Mathlib

/-!
Verification of the branch-sync uploader (`github_upload.py`) and of the
key-value memory HTTP service (`server.py`) of this repository.

The Python source is shallowly embedded: each function is translated into a
Lean definition over explicit inputs (remote state, per-call responses, a
directory-tree value for the filesystem walk), and the properties of the
specification are proved about these definitions.
-/

namespace Uploader

/-! ### Strings as the Python script sees them

`github_upload.py` manipulates paths with `str.split`, `str.startswith`,
substring membership (`'x' in s`), `str.endswith` and `str.replace`.  These
are embedded here on the character list underlying a `String`. -/

/-- Python `s.split(sep)` for a single-character separator, on the character
list: the string is cut at every occurrence of `sep`; splitting the empty
string yields `[[]]`, matching Python's `''.split(c) == ['']`. -/
def splitChar (sep : Char) : List Char → List (List Char)
  | [] => [[]]
  | c :: rest =>
    let r := splitChar sep rest
    if c = sep then [] :: r
    else (c :: r.headD []) :: r.tail

/-- Python `root.split(os.sep)` (line 104 of `github_upload.py`). -/
def pySplit (sep : Char) (s : String) : List String :=
  (splitChar sep s.data).map String.mk

/-- Python substring membership `needle in hay` (line 106). -/
def pyIn (needle hay : String) : Bool := decide (needle.data <:+: hay.data)

/-- Python `s.startswith(p)` (line 106). -/
def pyStartsWith (p s : String) : Bool := decide (p.data <+: s.data)

/-- Python `s.endswith(p)` (line 110). -/
def pyEndsWith (p s : String) : Bool := decide (p.data <:+ s.data)

/-- Python `s.replace(old, new)` for single-character `old` and `new`
(line 115: `rel.replace('\\', '/')`). -/
def pyReplaceChar (old new : Char) (s : String) : String :=
  String.mk (s.data.map (fun c => if c = old then new else c))

/-- `os.path.join(root, name)` for a separator-free relative `name`:
concatenation with one separator character in between (line 113). -/
def pathJoin (sep : Char) (a b : String) : String :=
  String.mk (a.data ++ sep :: b.data)

/-- Modelled from the source's use of `os.path.relpath(full, SOURCE_DIR)`
(line 114): every `full` built by the walk has the form
`SOURCE_DIR ++ sep ++ rest`, and on such paths `relpath` returns `rest`. -/
def relpathUnder (src full : String) : String :=
  String.mk (full.data.drop (src.data.length + 1))

/-! ### The filesystem and `os.walk` -/

mutual
/-- A directory: its regular-file names and its named subdirectories. -/
inductive FSTree where
  | node : List String → FSDirs → FSTree

/-- The subdirectory list of a directory. -/
inductive FSDirs where
  | nil : FSDirs
  | cons : String → FSTree → FSDirs → FSDirs
end

mutual
/-- The `os.walk(SOURCE_DIR)` traversal (line 102): yields each directory's
path together with its filenames, top-down, recursing into every
subdirectory.  The loop body never modifies `dirs`, so no directory is
pruned during the traversal itself; a subdirectory named `n` under `root`
is visited at path `os.path.join(root, n)`. -/
def walk (sep : Char) (root : String) : FSTree → List (String × List String)
  | .node files subs => (root, files) :: walkDirs sep root subs

/-- The walk of a list of subdirectories of `root`, in order. -/
def walkDirs (sep : Char) (root : String) : FSDirs → List (String × List String)
  | .nil => []
  | .cons n t rest => walk sep (pathJoin sep root n) t ++ walkDirs sep root rest
end

/-- Line 104: `'.git' in root.split(os.sep)`. -/
def skipGitComponent (sep : Char) (root : String) : Bool :=
  decide (".git" ∈ pySplit sep root)

/-- Line 106: `root.startswith('./.git') or '/.git' in root`. -/
def skipGitSubstring (root : String) : Bool :=
  pyStartsWith "./.git" root || pyIn "/.git" root

/-- The body of the discovery loop in `main` (lines 102-115) for one
`os.walk` entry: the two `continue` guards on the entry's root, then, per
filename, the `.zip` skip, the `full = os.path.join(root, fn)` and
`rel = os.path.relpath(full, SOURCE_DIR)` computations, and the backslash
normalization `rel.replace('\\', '/')`. -/
def handleEntry (sep : Char) (src : String) (e : String × List String) :
    List (String × String) :=
  if skipGitComponent sep e.1 then []
  else if skipGitSubstring e.1 then []
  else
    (e.2.filter (fun fn => !(pyEndsWith ".zip" fn))).map (fun fn =>
      let full := pathJoin sep e.1 fn
      (full, pyReplaceChar '\\' '/' (relpathUnder src full)))

/-- The records contributed to `files` by the walk of the subtree rooted at
`root` (the source directory being `src`). -/
def discoverFrom (sep : Char) (src root : String) (t : FSTree) :
    List (String × String) :=
  (walk sep root t).flatMap (handleEntry sep src)

/-- File discovery, lines 101-115 of `main`: the `files` list of
`(full, rel)` pairs accumulated over the whole walk of the source
directory. -/
def discoverFiles (sep : Char) (src : String) (t : FSTree) :
    List (String × String) :=
  discoverFrom sep src src t

mutual
/-- Removal of every subdirectory named `.git`, at any depth.  Used to state
that discovery excludes such subtrees wholesale. -/
def pruneGit : FSTree → FSTree
  | .node files subs => .node files (pruneGitDirs subs)

/-- Removal of every subdirectory named `.git` from a subdirectory list. -/
def pruneGitDirs : FSDirs → FSDirs
  | .nil => .nil
  | .cons n t rest =>
    if n = ".git" then pruneGitDirs rest
    else .cons n (pruneGit t) (pruneGitDirs rest)
end

/-! ### Per-file upload (`upload_file`, lines 75-97) -/

/-- Result of the existence query
`api_get(f'/repos/{REPO}/contents/{quote(relpath)}?ref={BRANCH}')`
(lines 34-40 and 79-86): either parsed JSON, of which the optional `sha`
field is the part the script reads; or the `HTTPError` object that `api_get`
returns as a value on a non-2xx response (in particular 404 "not found"); or
an exception propagating out of `api_get` (for example a `URLError` from
`urlopen`, which `api_get` does not catch). -/
inductive ContentsQueryResult where
  | ok (sha : Option String)
  | httpError
  | raised
deriving DecidableEq

/-- Python truthiness of the `sha` variable at line 89 (`if sha:`): `None`
and the empty string are falsy. -/
def pyTruthy : Option String → Bool
  | none => false
  | some s => !(s.isEmpty)

/-- The JSON payload of the PUT issued by `upload_file` (lines 87-92): the
`sha` key is present in the payload exactly when the Lean field is `some`. -/
structure PutPayload where
  message : String
  content : String
  branch : String
  sha : Option String
deriving DecidableEq

/-- Lines 79-90 of `upload_file`: any failing existence query — the
`HTTPError`-as-value return (re-raised at line 83) as well as an exception
propagating from `api_get` — lands in the `except` branch and sets
`sha = None`; a successful query reads the optional `sha` field (line 84).
The payload is built with `message`, `content` and `branch`, and the `sha`
key is added only when `sha` is truthy (lines 87-90). -/
def uploadPayload (commitPfx branch relpath contentB64 : String)
    (q : ContentsQueryResult) : PutPayload :=
  let sha : Option String :=
    match q with
    | .ok s => s
    | .httpError => none
    | .raised => none
  { message := commitPfx ++ " add " ++ relpath
    content := contentB64
    branch := branch
    sha := if pyTruthy sha then sha else none }

/-- Outcome of the `api_put` call in `upload_file` (lines 91-97): success,
or an `HTTPError` raised by `urlopen` on a non-2xx response, on which the
script prints the status and body and calls `sys.exit(5)`. -/
inductive PutResult where
  | ok
  | httpError (code : Nat)
deriving DecidableEq

/-- How a run of the upload loop ends. -/
inductive RunOutcome where
  | success
  | exited (code : Nat)
deriving DecidableEq

/-- Trace of the upload loop: which relative paths were PUT, in order, and
how the loop ended. -/
structure UploadTrace where
  putsAttempted : List String
  outcome : RunOutcome
deriving DecidableEq

/-- The upload loop of `main` (lines 117-118) combined with the PUT logic of
`upload_file` (lines 91-97): the discovered files are uploaded sequentially;
the first non-2xx PUT response terminates the process with exit status 5 and
no later file is attempted.  `resp` gives each relative path's PUT
response. -/
def runUploads (resp : String → PutResult) : List String → UploadTrace
  | [] => ⟨[], .success⟩
  | rp :: rest =>
    match resp rp with
    | .ok =>
      let t := runUploads resp rest
      ⟨rp :: t.putsAttempted, t.outcome⟩
    | .httpError _ => ⟨[rp], .exited 5⟩

/-! ### Branch creation (`ensure_branch`, lines 54-73) -/

/-- Remote branch state: an association of branch names to commit SHAs, read
and written through `/repos/{repo}/git/ref(s)`. -/
structure Remote where
  refs : List (String × String)
deriving DecidableEq

/-- `GET /repos/{repo}/git/ref/heads/{b}`: the SHA of branch `b`, or `none`
when the ref is absent (the API answers 404, which `api_get` surfaces as the
`HTTPError` value, line 40). -/
def lookupRef (r : Remote) (b : String) : Option String :=
  (r.refs.find? (fun p => p.1 == b)).map (fun p => p.2)

/-- How `ensure_branch` ends. -/
inductive BranchResult where
  | created
  | alreadyExists
  | exitedBase
  | exitedCreate
deriving DecidableEq

/-- Outcome of `ensure_branch`: its result, the number of branch-creation
POST calls it issued, and the remote state afterwards. -/
structure EnsureOutcome where
  result : BranchResult
  creationWrites : Nat
  remote : Remote
deriving DecidableEq

/-- `ensure_branch` (lines 54-73): resolve the base branch (on failure,
`sys.exit(3)`); if the target branch already exists, return with no write
(lines 63-66); otherwise POST one branch creation, which on success makes
the target branch point at the base SHA, and on failure exits with status 4
(lines 67-73).  `createFails` models the POST raising. -/
def ensure_branch (createFails : Bool) (base branch : String) (r : Remote) :
    EnsureOutcome :=
  match lookupRef r base with
  | none => ⟨.exitedBase, 0, r⟩
  | some baseSha =>
    match lookupRef r branch with
    | some _ => ⟨.alreadyExists, 0, r⟩
    | none =>
      if createFails then ⟨.exitedCreate, 1, r⟩
      else ⟨.created, 1, ⟨(branch, baseSha) :: r.refs⟩⟩

/-! ### The whole script (module level and `main`) -/

/-- The module-level credential check (lines 15-18) followed by `main`
(lines 99-118), with the discovered file list and the per-file PUT responses
abstracted as inputs.  Returns the process exit status (0 on full success)
paired with the number of remote API calls issued: a missing `GITHUB_TOKEN`
exits with status 2 before any remote call; `ensure_branch` issues one GET
for the base ref, one GET for the target ref once the base resolves, and one
POST when it creates the branch; each attempted upload issues one contents
GET and one PUT. -/
def scriptRun (token : Option String) (createFails : Bool)
    (base branch : String) (r : Remote) (files : List String)
    (resp : String → PutResult) : Nat × Nat :=
  match token with
  | none => (2, 0)
  | some _ =>
    match (ensure_branch createFails base branch r).result with
    | .exitedBase => (3, 1)
    | .exitedCreate => (4, 3)
    | .alreadyExists =>
      let t := runUploads resp files
      ((match t.outcome with | .success => 0 | .exited c => c),
        2 + 2 * t.putsAttempted.length)
    | .created =>
      let t := runUploads resp files
      ((match t.outcome with | .success => 0 | .exited c => c),
        3 + 2 * t.putsAttempted.length)

end Uploader

namespace MemoryService

/-- Outcome of a FastAPI handler: a 200 JSON body carrying the `value`
field, or an `HTTPException` with a status code and detail. -/
inductive HttpResponse where
  | ok (value : String)
  | error (status : Nat) (detail : String)
deriving DecidableEq

/-- `get_memory` in `server.py` (lines 17-23): a 404 `HTTPException` is
raised only when the memory file itself is missing; otherwise the stored
mapping is loaded and `memory.get(key, "Not Found")` supplies the literal
string `"Not Found"` for an absent key, returned in a normal 200 response. -/
def get_memory (fileExists : Bool) (memory : String → Option String)
    (key : String) : HttpResponse :=
  if !fileExists then .error 404 "Memory file not found"
  else .ok ((memory key).getD "Not Found")

end MemoryService

namespace Uploader

/-! ### Concrete inputs used in closed statements -/

/-- PUT responses where `b.txt` is rejected and every other path accepts. -/
def respB : String → PutResult :=
  fun f => if f = "b.txt" then .httpError 422 else .ok

/-- A tree with a file `c.txt` two directories deep: `a/b/c.txt`. -/
def treeABC : FSTree :=
  .node [] (.cons "a" (.node [] (.cons "b" (.node ["c.txt"] .nil) .nil)) .nil)

/-- A tree with `out.zip` and `out.zip.bak` at the root. -/
def treeZip : FSTree :=
  .node ["out.zip", "out.zip.bak"] .nil

/-- A tree with a `.git` directory (holding `HEAD` and `objects/o1`) nested
under `x`, next to a top-level `a.txt`. -/
def treeGit : FSTree :=
  .node ["a.txt"]
    (.cons "x"
      (.node ["inner.txt"]
        (.cons ".git"
          (.node ["HEAD"] (.cons "objects" (.node ["o1"] .nil) .nil))
          .nil))
      .nil)

/-- A tree whose only subdirectory is `.github`, holding `ci.yml`. -/
def treeGithub : FSTree :=
  .node ["a.txt"] (.cons ".github" (.node ["ci.yml"] .nil) .nil)

end Uploader

open Uploader MemoryService

/-! ## Claim theorems -/

/-- C1: `upload_file` puts no `sha` in the PUT payload when the existence
query returns the `HTTPError` value or raises (create mode), and puts the
queried `sha` token in the payload when the query succeeds and carries a
nonempty token (update mode). -/
theorem upload_create_vs_update (pfx branch relpath content : String)
    (q : ContentsQueryResult) :
    ((q = .httpError ∨ q = .raised) →
      (uploadPayload pfx branch relpath content q).sha = none) ∧
    (∀ s, q = .ok (some s) → s ≠ "" →
      (uploadPayload pfx branch relpath content q).sha = some s) := by
  constructor
  · rintro (rfl | rfl) <;> rfl
  · rintro s rfl hs
    have he : s.isEmpty = false := by
      cases he : s.isEmpty
      · rfl
      · exact absurd ((String.isEmpty_iff s).1 he) hs
    simp [uploadPayload, pyTruthy, he]

/-- Witness for C1 at a concrete path and token. -/
theorem upload_create_vs_update_witness :
    (uploadPayload "chore(verifier):" "feature/webssh-verifier" "a.txt"
      "aGVsbG8=" .httpError).sha = none ∧
    (uploadPayload "chore(verifier):" "feature/webssh-verifier" "a.txt"
      "aGVsbG8=" (.ok (some "abc123"))).sha = some "abc123" :=
  ⟨(upload_create_vs_update "chore(verifier):" "feature/webssh-verifier"
      "a.txt" "aGVsbG8=" .httpError).1 (Or.inl rfl),
    (upload_create_vs_update "chore(verifier):" "feature/webssh-verifier"
      "a.txt" "aGVsbG8=" (.ok (some "abc123"))).2 "abc123" rfl (by decide)⟩

/-- C5 counterexample: the commit message is not the prefix concatenated
with the relative path — the script interposes the literal `" add "`
(line 87: `f"{COMMIT_PREFIX} add {relpath}"`). -/
theorem commit_message_counterexample :
    (uploadPayload "chore(verifier):" "feature/webssh-verifier" "a.txt"
      "aGVsbG8=" .httpError).message ≠ "chore(verifier):" ++ "a.txt" := by
  decide

/-- C5 amended: for every uploaded file, the commit message equals the
configurable prefix, the literal `" add "`, and the relative path,
concatenated in that order. -/
theorem commit_message_shape (pfx branch relpath content : String)
    (q : ContentsQueryResult) :
    (uploadPayload pfx branch relpath content q).message =
      pfx ++ " add " ++ relpath := rfl

/-- C2: when the k-th file's PUT is rejected with a non-2xx response and all
earlier PUTs succeed, exactly the first k files are attempted, in order, no
later file is attempted, and the process exits with status 5, which is
non-zero. -/
theorem upload_fail_fast (resp : String → PutResult) (pre : List String)
    (bad : String) (post : List String) (c : Nat)
    (hpre : ∀ f ∈ pre, resp f = .ok) (hbad : resp bad = .httpError c) :
    runUploads resp (pre ++ bad :: post) = ⟨pre ++ [bad], .exited 5⟩ ∧
      (5 : Nat) ≠ 0 := by
  refine ⟨?_, by decide⟩
  induction pre with
  | nil => simp [runUploads, hbad]
  | cons f fs ih =>
    have hf : resp f = .ok := hpre f (by simp)
    have hrest := ih (fun g hg => hpre g (List.mem_cons_of_mem f hg))
    simp [runUploads, hf, hrest]

/-- Witness for C2: of three files, the second is rejected; the trace shows
exactly two PUT attempts and exit status 5. -/
theorem upload_fail_fast_witness :
    runUploads respB ["a.txt", "b.txt", "c.txt"] =
      ⟨["a.txt", "b.txt"], .exited 5⟩ ∧ (5 : Nat) ≠ 0 :=
  upload_fail_fast respB ["a.txt"] "b.txt" ["c.txt"] 422 (by decide)
    (by decide)

/-- C3: with the base branch resolvable, `ensure_branch` issues zero
branch-creation writes when the target branch exists and reports
`alreadyExists`; when the target branch is absent it issues exactly one
creation write, reports `created`, and a second call on the resulting state
reports `alreadyExists` with zero further writes — one creation write in
total. -/
theorem ensure_branch_idempotent (base branch : String) (r : Remote)
    (bs : String) (hbase : lookupRef r base = some bs) :
    ((∃ s, lookupRef r branch = some s) →
      (ensure_branch false base branch r).result = .alreadyExists ∧
      (ensure_branch false base branch r).creationWrites = 0) ∧
    (lookupRef r branch = none →
      (ensure_branch false base branch r).result = .created ∧
      (ensure_branch false base branch r).creationWrites = 1 ∧
      (ensure_branch false base branch
        (ensure_branch false base branch r).remote).result = .alreadyExists ∧
      (ensure_branch false base branch
        (ensure_branch false base branch r).remote).creationWrites = 0) := by
  constructor
  · rintro ⟨s, hs⟩
    constructor <;> simp [ensure_branch, hbase, hs]
  · intro habs
    have hne : (branch == base) = false := by
      rcases Bool.eq_false_or_eq_true (branch == base) with h | h
      · exfalso
        have heq : branch = base := by simpa using h
        rw [heq, hbase] at habs
        exact Option.noConfusion habs
      · exact h
    have h1 : ensure_branch false base branch r =
        ⟨.created, 1, ⟨(branch, bs) :: r.refs⟩⟩ := by
      simp [ensure_branch, hbase, habs]
    have hbase2 : lookupRef ⟨(branch, bs) :: r.refs⟩ base = some bs := by
      unfold lookupRef at hbase ⊢
      simpa [List.find?_cons, hne] using hbase
    have hbranch2 : lookupRef ⟨(branch, bs) :: r.refs⟩ branch = some bs := by
      simp [lookupRef, List.find?_cons]
    refine ⟨?_, ?_, ?_, ?_⟩ <;>
      rw [h1] <;> simp [ensure_branch, hbase2, hbranch2]

/-- Witness for C3 at a concrete remote holding only `main`. -/
theorem ensure_branch_idempotent_witness :
    (ensure_branch false "main" "feature/webssh-verifier"
      ⟨[("main", "abc123")]⟩).result = .created ∧
    (ensure_branch false "main" "feature/webssh-verifier"
      ⟨[("main", "abc123")]⟩).creationWrites = 1 ∧
    (ensure_branch false "main" "feature/webssh-verifier"
      (ensure_branch false "main" "feature/webssh-verifier"
        ⟨[("main", "abc123")]⟩).remote).result = .alreadyExists ∧
    (ensure_branch false "main" "feature/webssh-verifier"
      (ensure_branch false "main" "feature/webssh-verifier"
        ⟨[("main", "abc123")]⟩).remote).creationWrites = 0 :=
  (ensure_branch_idempotent "main" "feature/webssh-verifier"
    ⟨[("main", "abc123")]⟩ "abc123" (by decide)).2 (by decide)

/-- C10: when the memory file exists and the key is absent from the stored
mapping, `get_memory` raises no HTTP error and answers 200 with the literal
value `"Not Found"`. -/
theorem get_memory_absent_key (memory : String → Option String) (key : String)
    (h : memory key = none) :
    get_memory true memory key = .ok "Not Found" := by
  simp [get_memory, h]

/-- Witness for C10 at a concrete one-entry mapping and an absent key. -/
theorem get_memory_absent_key_witness :
    get_memory true (fun k => if k = "a" then some "v" else none) "b" =
      .ok "Not Found" :=
  get_memory_absent_key (fun k => if k = "a" then some "v" else none) "b"
    (by decide)

/-! ## Helper lemmas about the embedded string primitives -/

/-- `splitChar` never returns the empty list. -/
theorem splitChar_ne_nil (sep : Char) (l : List Char) :
    splitChar sep l ≠ [] := by
  cases l with
  | nil => simp [splitChar]
  | cons c rest =>
    simp only [splitChar]
    split <;> simp

/-- Splitting is compositional at a separator occurrence. -/
theorem splitChar_append (sep : Char) (xs ys : List Char) :
    splitChar sep (xs ++ sep :: ys) = splitChar sep xs ++ splitChar sep ys := by
  induction xs with
  | nil => simp [splitChar]
  | cons c rest ih =>
    by_cases hc : c = sep
    · subst hc
      simp [splitChar, ih]
    · cases h : splitChar sep rest with
      | nil => exact absurd h (splitChar_ne_nil sep rest)
      | cons p ps => simp [splitChar, hc, ih, h]

/-- A separator-free string splits to itself alone. -/
theorem splitChar_of_not_mem (sep : Char) (l : List Char) (h : sep ∉ l) :
    splitChar sep l = [l] := by
  induction l with
  | nil => rfl
  | cons c rest ih =>
    have hc : ¬ c = sep := fun he => h (he ▸ List.mem_cons_self c rest)
    have hrest : sep ∉ rest := fun hm => h (List.mem_cons_of_mem c hm)
    simp [splitChar, hc, ih hrest]

/-- Python split distributes over `os.path.join`. -/
theorem pySplit_pathJoin (sep : Char) (a b : String) :
    pySplit sep (pathJoin sep a b) = pySplit sep a ++ pySplit sep b := by
  unfold pySplit pathJoin
  rw [show (String.mk (a.data ++ sep :: b.data)).data =
    a.data ++ sep :: b.data from rfl]
  rw [splitChar_append, List.map_append]

/-- Python split of a separator-free string. -/
theorem pySplit_single (sep : Char) (s : String) (h : sep ∉ s.data) :
    pySplit sep s = [s] := by
  unfold pySplit
  rw [splitChar_of_not_mem sep s.data h]
  rfl

/-- A list stays a prefix after extending the right end. -/
theorem isPrefixExtend {α : Type _} {l a : List α} (b : List α)
    (h : l <+: a) : l <+: a ++ b := by
  obtain ⟨t, ht⟩ := h
  exact ⟨t ++ b, by rw [← ht]; simp⟩

/-- A list stays an infix after extending the right end. -/
theorem isInfixExtend {α : Type _} {l a : List α} (b : List α)
    (h : l <:+: a) : l <:+: a ++ b := by
  obtain ⟨s, t, ht⟩ := h
  exact ⟨s, t ++ b, by rw [← ht]; simp⟩

/-- The guard of line 106 propagates from a directory to its entries. -/
theorem skipGitSubstring_pathJoin (sep : Char) (root n : String)
    (h : skipGitSubstring root = true) :
    skipGitSubstring (pathJoin sep root n) = true := by
  unfold skipGitSubstring pyStartsWith pyIn at h ⊢
  rw [show (pathJoin sep root n).data = root.data ++ sep :: n.data from rfl]
  simp only [Bool.or_eq_true, decide_eq_true_eq] at h ⊢
  rcases h with h | h
  · exact Or.inl (isPrefixExtend (sep :: n.data) h)
  · exact Or.inr (isInfixExtend (sep :: n.data) h)

/-- Unfolding of `discoverFrom` at a tree node. -/
theorem discoverFrom_node (sep : Char) (src root : String)
    (files : List String) (subs : FSDirs) :
    discoverFrom sep src root (.node files subs) =
      handleEntry sep src (root, files) ++
        (walkDirs sep root subs).flatMap (handleEntry sep src) := by
  unfold discoverFrom walk
  simp

mutual
/-- Inside a directory whose path has a `.git` component, the walk
contributes no record (line 104 skips every entry of the subtree). -/
theorem discoverFrom_git_nil (sep : Char) (src root : String) (t : FSTree)
    (h : ".git" ∈ pySplit sep root) : discoverFrom sep src root t = [] := by
  cases t with
  | node files subs =>
    rw [discoverFrom_node]
    have hs : skipGitComponent sep root = true := decide_eq_true h
    rw [discoverFromDirs_git_nil sep src root subs h]
    simp [handleEntry, hs]

/-- Subdirectory-list version of `discoverFrom_git_nil`. -/
theorem discoverFromDirs_git_nil (sep : Char) (src root : String) (d : FSDirs)
    (h : ".git" ∈ pySplit sep root) :
    (walkDirs sep root d).flatMap (handleEntry sep src) = [] := by
  cases d with
  | nil => rfl
  | cons n t rest =>
    unfold walkDirs
    rw [List.flatMap_append]
    have h1 : ".git" ∈ pySplit sep (pathJoin sep root n) := by
      rw [pySplit_pathJoin]
      exact List.mem_append_left _ h
    rw [show (walk sep (pathJoin sep root n) t).flatMap (handleEntry sep src) =
      discoverFrom sep src (pathJoin sep root n) t from rfl]
    rw [discoverFrom_git_nil sep src (pathJoin sep root n) t h1]
    rw [discoverFromDirs_git_nil sep src root rest h]
    rfl
end

mutual
/-- Pruning `.git` subdirectories does not change the discovered records. -/
theorem discoverFrom_pruneGit (sep : Char) (hsep : sep ∉ (".git" : String).data)
    (src root : String) (t : FSTree) :
    discoverFrom sep src root (pruneGit t) = discoverFrom sep src root t := by
  cases t with
  | node files subs =>
    rw [show pruneGit (.node files subs) =
      .node files (pruneGitDirs subs) from rfl]
    rw [discoverFrom_node, discoverFrom_node]
    rw [discoverFromDirs_pruneGit sep hsep src root subs]

/-- Subdirectory-list version of `discoverFrom_pruneGit`. -/
theorem discoverFromDirs_pruneGit (sep : Char)
    (hsep : sep ∉ (".git" : String).data) (src root : String) (d : FSDirs) :
    (walkDirs sep root (pruneGitDirs d)).flatMap (handleEntry sep src) =
      (walkDirs sep root d).flatMap (handleEntry sep src) := by
  cases d with
  | nil => rfl
  | cons n t rest =>
    have hw : walkDirs sep root (.cons n t rest) =
        walk sep (pathJoin sep root n) t ++ walkDirs sep root rest := rfl
    by_cases hn : n = ".git"
    · subst hn
      have hp : pruneGitDirs (.cons ".git" t rest) = pruneGitDirs rest := by
        rw [pruneGitDirs]
        exact if_pos rfl
      rw [hp, hw, List.flatMap_append]
      have h1 : ".git" ∈ pySplit sep (pathJoin sep root ".git") := by
        rw [pySplit_pathJoin, pySplit_single sep ".git" hsep]
        exact List.mem_append_right _ (by simp)
      rw [show (walk sep (pathJoin sep root ".git") t).flatMap
        (handleEntry sep src) =
        discoverFrom sep src (pathJoin sep root ".git") t from rfl]
      rw [discoverFrom_git_nil sep src (pathJoin sep root ".git") t h1]
      rw [discoverFromDirs_pruneGit sep hsep src root rest]
      rfl
    · have hp : pruneGitDirs (.cons n t rest) =
          .cons n (pruneGit t) (pruneGitDirs rest) := by
        rw [pruneGitDirs]
        exact if_neg hn
      have hw2 : walkDirs sep root (.cons n (pruneGit t) (pruneGitDirs rest)) =
          walk sep (pathJoin sep root n) (pruneGit t) ++
            walkDirs sep root (pruneGitDirs rest) := rfl
      rw [hp, hw2, hw, List.flatMap_append, List.flatMap_append]
      rw [show (walk sep (pathJoin sep root n) (pruneGit t)).flatMap
        (handleEntry sep src) =
        discoverFrom sep src (pathJoin sep root n) (pruneGit t) from rfl]
      rw [show (walk sep (pathJoin sep root n) t).flatMap
        (handleEntry sep src) =
        discoverFrom sep src (pathJoin sep root n) t from rfl]
      rw [discoverFrom_pruneGit sep hsep src (pathJoin sep root n) t]
      rw [discoverFromDirs_pruneGit sep hsep src root rest]
end

mutual
/-- Inside a directory whose path trips the line-106 guard, the walk
contributes no record, since the guard propagates to every entry below. -/
theorem discoverFrom_dotgit_sub_nil (sep : Char) (src root : String)
    (t : FSTree) (h : skipGitSubstring root = true) :
    discoverFrom sep src root t = [] := by
  cases t with
  | node files subs =>
    rw [discoverFrom_node]
    rw [discoverFromDirs_dotgit_sub_nil sep src root subs h]
    cases h4 : skipGitComponent sep root <;> simp [handleEntry, h4, h]

/-- Subdirectory-list version of `discoverFrom_dotgit_sub_nil`. -/
theorem discoverFromDirs_dotgit_sub_nil (sep : Char) (src root : String)
    (d : FSDirs) (h : skipGitSubstring root = true) :
    (walkDirs sep root d).flatMap (handleEntry sep src) = [] := by
  cases d with
  | nil => rfl
  | cons n t rest =>
    unfold walkDirs
    rw [List.flatMap_append]
    rw [show (walk sep (pathJoin sep root n) t).flatMap (handleEntry sep src) =
      discoverFrom sep src (pathJoin sep root n) t from rfl]
    rw [discoverFrom_dotgit_sub_nil sep src (pathJoin sep root n) t
      (skipGitSubstring_pathJoin sep root n h)]
    rw [discoverFromDirs_dotgit_sub_nil sep src root rest h]
    rfl
end

/-- C4: a version-control metadata subdirectory (`.git`) is excluded from
discovery wholesale, at any nesting depth: discovery on any tree equals
discovery on the tree with every `.git` subdirectory removed, and the walk
of any subtree rooted at a `.git` directory contributes zero records. -/
theorem discover_excludes_git_subtrees (sep : Char)
    (hsep : sep ∉ (".git" : String).data) (src : String) (t : FSTree) :
    discoverFiles sep src t = discoverFiles sep src (pruneGit t) ∧
    (∀ (root : String) (sub : FSTree),
      discoverFrom sep src (pathJoin sep root ".git") sub = []) := by
  constructor
  · exact (discoverFrom_pruneGit sep hsep src src t).symm
  · intro root sub
    apply discoverFrom_git_nil
    rw [pySplit_pathJoin, pySplit_single sep ".git" hsep]
    exact List.mem_append_right _ (by simp)

/-- Witness for C4: with separator `/`, on a tree holding `a/x/.git` with a
`HEAD` file and a nested `objects/o1`, discovery ignores the `.git`
subtree. -/
theorem discover_excludes_git_subtrees_witness :
    ('/' ∉ (".git" : String).data) ∧
    discoverFiles '/' "." treeGit = discoverFiles '/' "." (pruneGit treeGit) :=
  ⟨by decide,
    (discover_excludes_git_subtrees '/' (by decide) "." treeGit).1⟩

/-- C9: any directory whose path string merely contains the substring
`/.git`, or starts with `./.git`, has its whole subtree excluded from
discovery — `.github` included, since `/.git` is a substring of
`./.github`; concretely, a tree with `.github/ci.yml` and a top-level
`a.txt` yields only the `a.txt` record. -/
theorem dotgit_substring_excludes_subtree (sep : Char) (src root : String)
    (t : FSTree) (h : skipGitSubstring root = true) :
    discoverFrom sep src root t = [] ∧
    discoverFiles '/' "." treeGithub = [("./a.txt", "a.txt")] := by
  constructor
  · exact discoverFrom_dotgit_sub_nil sep src root t h
  · decide

/-- Witness for C9: the `./.github` directory trips the substring guard
and its `ci.yml` is excluded. -/
theorem dotgit_substring_excludes_subtree_witness :
    discoverFrom '/' "." "./.github" (.node ["ci.yml"] .nil) = [] ∧
    discoverFiles '/' "." treeGithub = [("./a.txt", "a.txt")] :=
  dotgit_substring_excludes_subtree '/' "." "./.github"
    (.node ["ci.yml"] .nil) (by decide)

/-- C6: with backslash as the host separator, no discovered record's
relative path contains a backslash — every one is replaced by `/`
(line 115) — and the file at host path `.\a\b\c.txt` yields relative path
`a/b/c.txt`. -/
theorem path_normalization :
    (∀ (src : String) (t : FSTree) (p : String × String),
      p ∈ discoverFiles '\\' src t → '\\' ∉ p.2.data) ∧
    discoverFiles '\\' "." treeABC = [(".\\a\\b\\c.txt", "a/b/c.txt")] := by
  constructor
  · intro src t p hp
    unfold discoverFiles discoverFrom at hp
    rw [List.mem_flatMap] at hp
    obtain ⟨e, _, hpe⟩ := hp
    unfold handleEntry at hpe
    split at hpe
    · simp at hpe
    · split at hpe
      · simp at hpe
      · rw [List.mem_map] at hpe
        obtain ⟨fn, _, hfp⟩ := hpe
        subst hfp
        intro hmem
        rw [show (pyReplaceChar '\\' '/'
          (relpathUnder src (pathJoin '\\' e.1 fn))).data =
          (relpathUnder src (pathJoin '\\' e.1 fn)).data.map
            (fun c => if c = '\\' then '/' else c) from rfl] at hmem
        rw [List.mem_map] at hmem
        obtain ⟨c, _, hc⟩ := hmem
        by_cases hcb : c = '\\'
        · rw [if_pos hcb] at hc
          exact absurd hc (by decide)
        · rw [if_neg hcb] at hc
          exact hcb hc
  · decide

/-- Witness for C6: the record of `.\a\b\c.txt` carries a backslash-free
relative path. -/
theorem path_normalization_witness :
    '\\' ∉ ((".\\a\\b\\c.txt", ("a/b/c.txt" : String)) : String × String).2.data :=
  path_normalization.1 "." treeABC (".\\a\\b\\c.txt", "a/b/c.txt") (by decide)

/-- C7: every discovered record's full path is `os.path.join(root, fn)` for
a filename that does not end in `.zip` (line 110 skips all others), and
concretely `out.zip` at the root is absent from the output while
`out.zip.bak` is present. -/
theorem archive_exclusion :
    (∀ (sep : Char) (src : String) (t : FSTree) (p : String × String),
      p ∈ discoverFiles sep src t →
      ∃ root fn, pyEndsWith ".zip" fn = false ∧ p.1 = pathJoin sep root fn) ∧
    discoverFiles '/' "." treeZip = [("./out.zip.bak", "out.zip.bak")] := by
  constructor
  · intro sep src t p hp
    unfold discoverFiles discoverFrom at hp
    rw [List.mem_flatMap] at hp
    obtain ⟨e, _, hpe⟩ := hp
    unfold handleEntry at hpe
    split at hpe
    · simp at hpe
    · split at hpe
      · simp at hpe
      · rw [List.mem_map] at hpe
        obtain ⟨fn, hfn, hfp⟩ := hpe
        rw [List.mem_filter] at hfn
        refine ⟨e.1, fn, by simpa using hfn.2, ?_⟩
        subst hfp
        rfl
  · decide

/-- Witness for C7: the record of `out.zip.bak` comes from a filename not
ending in `.zip`. -/
theorem archive_exclusion_witness :
    ∃ root fn, pyEndsWith ".zip" fn = false ∧
      (("./out.zip.bak", ("out.zip.bak" : String)) : String × String).1 =
        pathJoin '/' root fn :=
  archive_exclusion.1 '/' "." treeZip ("./out.zip.bak", "out.zip.bak")
    (by decide)

/-- If every PUT response is a success, the upload loop succeeds. -/
theorem runUploads_success_of_all_ok (resp : String → PutResult)
    (files : List String) (h : ∀ f ∈ files, resp f = .ok) :
    (runUploads resp files).outcome = .success := by
  induction files with
  | nil => rfl
  | cons f fs ih =>
    have hf := h f (by simp)
    simp [runUploads, hf, ih (fun g hg => h g (List.mem_cons_of_mem f hg))]

/-- If the upload loop succeeds, every PUT response was a success. -/
theorem runUploads_all_ok_of_success (resp : String → PutResult)
    (files : List String) (h : (runUploads resp files).outcome = .success) :
    ∀ f ∈ files, resp f = .ok := by
  induction files with
  | nil =>
    intro f hf
    simp at hf
  | cons f fs ih =>
    intro g hg
    cases hf : resp f with
    | ok =>
      rcases List.mem_cons.mp hg with rfl | hg2
      · exact hf
      · refine ih ?_ g hg2
        simpa [runUploads, hf] using h
    | httpError c =>
      exfalso
      simp [runUploads, hf] at h
  
/-- The only exit status the upload loop produces is 5. -/
theorem runUploads_exit_code (resp : String → PutResult)
    (files : List String) (c : Nat)
    (h : (runUploads resp files).outcome = .exited c) : c = 5 := by
  induction files with
  | nil => simp [runUploads] at h
  | cons f fs ih =>
    cases hf : resp f with
    | ok =>
      refine ih ?_
      simpa [runUploads, hf] using h
    | httpError d =>
      simp [runUploads, hf] at h
      omega

/-- C8: a missing credential exits with status 2 before any remote call is
made; an unresolved base branch exits with status 3; a branch-creation
failure exits with status 4; a rejected upload exits with status 5; status 0
entails that the branch setup succeeded and every PUT was accepted; and the
four fatal statuses are pairwise distinct and non-zero. -/
theorem exit_status_discipline (cf : Bool) (base branch : String) (r : Remote)
    (files : List String) (resp : String → PutResult) :
    scriptRun none cf base branch r files resp = (2, 0) ∧
    (∀ tok, lookupRef r base = none →
      (scriptRun (some tok) cf base branch r files resp).1 = 3) ∧
    (∀ tok bs, lookupRef r base = some bs → lookupRef r branch = none →
      (scriptRun (some tok) true base branch r files resp).1 = 4) ∧
    (∀ tok c, ((ensure_branch cf base branch r).result = .created ∨
        (ensure_branch cf base branch r).result = .alreadyExists) →
      (runUploads resp files).outcome = .exited c →
      (scriptRun (some tok) cf base branch r files resp).1 = 5) ∧
    (∀ tok, (scriptRun (some tok) cf base branch r files resp).1 = 0 →
      ((ensure_branch cf base branch r).result = .created ∨
        (ensure_branch cf base branch r).result = .alreadyExists) ∧
      ∀ f ∈ files, resp f = .ok) ∧
    ((2 : Nat) ≠ 0 ∧ (3 : Nat) ≠ 0 ∧ (4 : Nat) ≠ 0 ∧ (5 : Nat) ≠ 0 ∧
      (2 : Nat) ≠ 3 ∧ (2 : Nat) ≠ 4 ∧ (2 : Nat) ≠ 5 ∧ (3 : Nat) ≠ 4 ∧
      (3 : Nat) ≠ 5 ∧ (4 : Nat) ≠ 5) := by
  refine ⟨rfl, ?_, ?_, ?_, ?_, by omega⟩
  · intro tok h
    simp [scriptRun, ensure_branch, h]
  · intro tok bs h1 h2
    simp [scriptRun, ensure_branch, h1, h2]
  · intro tok c hok hexit
    have h5 : c = 5 := runUploads_exit_code resp files c hexit
    rcases hok with hok | hok <;> simp [scriptRun, hok, hexit, h5]
  · intro tok h0
    cases her : (ensure_branch cf base branch r).result with
    | exitedBase => simp [scriptRun, her] at h0
    | exitedCreate => simp [scriptRun, her] at h0
    | created =>
      refine ⟨Or.inl rfl, ?_⟩
      cases ho : (runUploads resp files).outcome with
      | success => exact runUploads_all_ok_of_success resp files ho
      | exited c =>
        have h5 : c = 5 := runUploads_exit_code resp files c ho
        simp [scriptRun, her, ho, h5] at h0
    | alreadyExists =>
      refine ⟨Or.inr rfl, ?_⟩
      cases ho : (runUploads resp files).outcome with
      | success => exact runUploads_all_ok_of_success resp files ho
      | exited c =>
        have h5 : c = 5 := runUploads_exit_code resp files c ho
        simp [scriptRun, her, ho, h5] at h0

/-- Witness for C8: each fatal condition observed at concrete inputs. -/
theorem exit_status_discipline_witness :
    scriptRun none false "main" "feature/webssh-verifier"
      ⟨[("main", "abc123")]⟩ ["a.txt"] respB = (2, 0) ∧
    (scriptRun (some "tok") false "main" "feature/webssh-verifier"
      ⟨[]⟩ ["a.txt"] respB).1 = 3 ∧
    (scriptRun (some "tok") true "main" "feature/webssh-verifier"
      ⟨[("main", "abc123")]⟩ ["a.txt"] respB).1 = 4 ∧
    (scriptRun (some "tok") false "main" "feature/webssh-verifier"
      ⟨[("main", "abc123")]⟩ ["a.txt", "b.txt"] respB).1 = 5 :=
  ⟨(exit_status_discipline false "main" "feature/webssh-verifier"
      ⟨[("main", "abc123")]⟩ ["a.txt"] respB).1,
    (exit_status_discipline false "main" "feature/webssh-verifier"
      ⟨[]⟩ ["a.txt"] respB).2.1 "tok" (by decide),
    (exit_status_discipline false "main" "feature/webssh-verifier"
      ⟨[("main", "abc123")]⟩ ["a.txt"] respB).2.2.1 "tok" "abc123"
      (by decide) (by decide),
    (exit_status_discipline false "main" "feature/webssh-verifier"
      ⟨[("main", "abc123")]⟩ ["a.txt", "b.txt"] respB).2.2.2.1 "tok" 5
      (Or.inl (by decide)) (by decide)⟩
